import Mathlib

/-!
Shallow embedding of the githd repository's caching core (src/dataloader.ts).

The source is a read-through caching layer (class Dataloader) over a git data
source (GitService).  We embed its state as a structure, its methods as pure
functions that thread the state explicitly, and its asynchronous parts
(the debounced bulk reload of _updateCaches and the fire-and-forget cache
warming task spawned by getLogEntries) as events of a small-step relation:
an event either performs a query, delivers a filesystem notification, fires
the debounce timer, or completes one of the outstanding asynchronous tasks.

Each query operation returns its result, the successor state, and a Bool
recording whether the live git source was consulted (true) or the answer
came from the cache (false).
-/

/-- Log entry record; the dataloader treats entries opaquely, so one field
suffices for the embedding. -/
structure GitLogEntry where
  hash : String
deriving DecidableEq, Repr

/-- Repository identified by its root path, as in the source (GitRepo.root). -/
structure GitRepo where
  root : String
deriving DecidableEq, Repr

/-- Model of the npm lru-cache used by the source: an association list kept in
most-recently-used-first order, bounded by max. -/
structure LRUCache (β : Type) where
  max : Nat
  entries : List (String × β)
deriving DecidableEq, Repr

/-- Lookup promotes the found key to most-recently-used, as lru-cache does;
returns the value (if any) and the updated cache. -/
def LRUCache.get {β : Type} (c : LRUCache β) (k : String) : Option β × LRUCache β :=
  match c.entries.find? (fun e => e.1 == k) with
  | none => (none, c)
  | some e => (some e.2, ⟨c.max, e :: c.entries.filter (fun x => x.1 != k)⟩)

/-- Insertion puts the key at most-recently-used position and evicts the
least-recently-used entries beyond capacity. -/
def LRUCache.set {β : Type} (c : LRUCache β) (k : String) (v : β) : LRUCache β :=
  ⟨c.max, (k, v) :: (c.entries.filter (fun x => x.1 != k)).take (c.max - 1)⟩

def LRUCache.clear {β : Type} (c : LRUCache β) : LRUCache β :=
  ⟨c.max, []⟩

/-- The Cache class of dataloader.ts: branch and commits scalars plus the two
LRU maps (logEntries capacity 5, counts capacity 100). -/
structure Cache where
  branch : String := ""
  commits : List String := []
  logEntries : LRUCache (List GitLogEntry) := ⟨5, []⟩
  counts : LRUCache Nat := ⟨100, []⟩
deriving DecidableEq, Repr

/-- Cache.logEntriesCount, the full-page constant. -/
def Cache.logEntriesCount : Nat := 1200

/-- Source: countKey(branch, author) returns the template string
branch-comma-author. -/
def Cache.countKey (branch author : String) : String :=
  branch ++ "," ++ author

/-- Source: logEntryKey(branch, stash?, file?, line?, author?) joins branch,
a stash marker (the character 1 when the flag is truthy, empty otherwise),
the file path or empty, the decimal line number or empty, and the author or
empty, with comma separators.  The source collapses an absent stash flag and
a false one to the same marker, so the flag is embedded as a Bool. -/
def Cache.logEntryKey (branch : String) (stash : Bool) (file : Option String)
    (line : Option Nat) (author : Option String) : String :=
  branch ++ "," ++ (if stash then "1" else "") ++ "," ++ file.getD "" ++ ","
    ++ (line.map Nat.repr).getD "" ++ "," ++ author.getD ""

/-- Source: Cache.clear resets branch and commits and empties both LRU maps. -/
def Cache.clear (c : Cache) : Cache :=
  { c with branch := "", commits := [], logEntries := c.logEntries.clear,
           counts := c.counts.clear }

/-- The external git data source, modelled as pure query functions (the
infallible model; a fallible variant appears further down for the
error-handling analysis).  Argument order follows gitService call sites:
getLogEntries repo express start count branch isStash file line author;
getCommits repo branch. -/
structure GitService where
  getLogEntries : GitRepo → Bool → Nat → Nat → String → Option Bool → Option String →
    Option Nat → Option String → List GitLogEntry
  getCommitsCount : GitRepo → String → Option String → Nat
  getCurrentBranch : GitRepo → Option String
  getCommits : GitRepo → Option String → List String

/-- A pending cache-warming task: the closure queued by setTimeout in
getLogEntries captures the repo, the query parameters and the already
computed cache key. -/
structure WarmTask where
  repo : GitRepo
  express : Bool
  key : String
  branch : String
  isStash : Option Bool
  file : Option String
  line : Option Nat
  author : Option String
deriving DecidableEq, Repr

/-- State of the Dataloader class: the private fields _cache, _repo and
_updating, plus the outstanding asynchronous work — updateDelay is the armed
debounce timer together with the repo captured by its callback, inflight are
bulk reloads whose timer fired and whose git fetches are still awaited, and
warming are queued cache-warming tasks. -/
structure Dataloader where
  cache : Cache := {}
  repo : Option GitRepo := none
  updating : Bool := false
  updateDelay : Option GitRepo := none
  inflight : List GitRepo := []
  warming : List WarmTask := []
deriving DecidableEq, Repr

/-- JavaScript Array.prototype.slice with a start and an end position (the
source always calls slice with start and start plus count). -/
def jsSlice {α : Type} (l : List α) (start stop : Nat) : List α :=
  (l.take stop).drop start

/-- Source: _useCache(repo) is false when the root differs from the active
repo (or none is active) or while an update is in flight. -/
def Dataloader.useCache (s : Dataloader) (root : String) : Bool :=
  match s.repo with
  | none => false
  | some r => r.root == root && !s.updating

/-- Source: getLogEntries.  On an unusable cache, delegate to the live source.
Otherwise look the key up (promoting it); a hit whose stored length is below
the full-page constant, or which strictly covers the requested window, is
answered by the in-range slice with no live call.  Any other case performs a
live fetch; when start is 0 the result is either stored directly (requested
count at least the constant but result below it) or a warming task for the
first full page is queued (requested count below the constant). -/
def Dataloader.getLogEntries (git : GitService) (s : Dataloader) (repo : GitRepo)
    (express : Bool) (start count : Nat) (branch : String) (isStash : Option Bool)
    (file : Option String) (line : Option Nat) (author : Option String) :
    List GitLogEntry × Dataloader × Bool :=
  if !(s.useCache repo.root) then
    (git.getLogEntries repo express start count branch isStash file line author, s, true)
  else
    let key := Cache.logEntryKey branch (isStash.getD false) file line author
    let res := s.cache.logEntries.get key
    let s1 : Dataloader := { s with cache := { s.cache with logEntries := res.2 } }
    let hit : Option (List GitLogEntry) :=
      match res.1 with
      | some cached =>
        if cached.length < Cache.logEntriesCount then
          some (jsSlice cached start (start + count))
        else if start + count < cached.length then
          some (jsSlice cached start (start + count))
        else none
      | none => none
    match hit with
    | some entries => (entries, s1, false)
    | none =>
      let entries := git.getLogEntries repo express start count branch isStash file line author
      if start == 0 then
        if Cache.logEntriesCount ≤ count && entries.length < Cache.logEntriesCount then
          (entries, { s1 with cache := { s1.cache with
            logEntries := s1.cache.logEntries.set key entries } }, true)
        else if count < Cache.logEntriesCount then
          (entries, { s1 with
            warming := s1.warming ++ [⟨repo, express, key, branch, isStash, file, line, author⟩] },
           true)
        else (entries, s1, true)
      else (entries, s1, true)

/-- Source: getCommitsCount.  The hit test is the JavaScript truthiness check
on the cached number, so a cached value of 0 falls through to the live fetch
and is re-stored. -/
def Dataloader.getCommitsCount (git : GitService) (s : Dataloader) (repo : GitRepo)
    (branch : String) (author : Option String) : Nat × Dataloader × Bool :=
  if !(s.useCache repo.root) then
    (git.getCommitsCount repo branch author, s, true)
  else
    let key := Cache.countKey branch (author.getD "")
    let res := s.cache.counts.get key
    let s1 : Dataloader := { s with cache := { s.cache with counts := res.2 } }
    let fetch : Nat × Dataloader × Bool :=
      let result := git.getCommitsCount repo branch author
      (result, { s1 with cache := { s1.cache with
        counts := s1.cache.counts.set key result } }, true)
    match res.1 with
    | some count => if count != 0 then (count, s1, false) else fetch
    | none => fetch

/-- Source: getCurrentBranch; an absent repo yields the empty string, a usable
cache yields the cached branch, otherwise the live branch (or empty). -/
def Dataloader.getCurrentBranch (git : GitService) (s : Dataloader)
    (repo : Option GitRepo) : String × Bool :=
  match repo with
  | none => ("", false)
  | some r =>
    if s.useCache r.root then (s.cache.branch, false)
    else ((git.getCurrentBranch r).getD "", true)

/-- Source: getNextCommit returns the entry at the previous array index
(the chronologically newer neighbour) when the ref is found at a positive
index, and the empty string otherwise. -/
def Dataloader.getNextCommit (git : GitService) (s : Dataloader)
    (repo : Option GitRepo) (ref : String) : String × Bool :=
  match repo with
  | none => ("", false)
  | some r =>
    let useC := s.useCache r.root
    let commits := if useC then s.cache.commits else git.getCommits r none
    match commits.findIdx? (· == ref) with
    | some index => (if 0 < index then commits.getD (index - 1) "" else "", !useC)
    | none => ("", !useC)

/-- Source: getPreviousCommit returns the entry at the following array index
(the chronologically older neighbour) when it exists. -/
def Dataloader.getPreviousCommit (git : GitService) (s : Dataloader)
    (repo : Option GitRepo) (ref : String) : String × Bool :=
  match repo with
  | none => ("", false)
  | some r =>
    let useC := s.useCache r.root
    let commits := if useC then s.cache.commits else git.getCommits r none
    match commits.findIdx? (· == ref) with
    | some index =>
      (if index + 1 < commits.length then commits.getD (index + 1) "" else "", !useC)
    | none => ("", !useC)

/-- Source: hasNeighborCommits returns the pair (has previous commit, has next
commit), both false for an absent repo or an absent ref. -/
def Dataloader.hasNeighborCommits (git : GitService) (s : Dataloader)
    (repo : Option GitRepo) (ref : String) : (Bool × Bool) × Bool :=
  match repo with
  | none => ((false, false), false)
  | some r =>
    let useC := s.useCache r.root
    let commits := if useC then s.cache.commits else git.getCommits r none
    match commits.findIdx? (· == ref) with
    | some index => ((decide (index + 1 < commits.length), decide (0 < index)), !useC)
    | none => ((false, false), !useC)

/-- Synchronous prefix of _updateCaches: set the updating flag, cancel any
armed timer and arm a fresh one whose callback captures the given repo. -/
def Dataloader.updateCaches (s : Dataloader) (repo : GitRepo) : Dataloader :=
  { s with updating := true, updateDelay := some repo }

/-- Source: updateRepo.  A repo with the active root is a no-op; otherwise the
watcher is replaced, the pending timer cancelled, the cache cleared, the
updating flag reset, the repo installed, and _updateCaches invoked at once
(which re-raises the updating flag synchronously).  Outstanding asynchronous
tasks (inflight reloads, warming tasks) are not cancellable and survive. -/
def Dataloader.updateRepo (s : Dataloader) (repo : GitRepo) : Dataloader :=
  if (s.repo.map GitRepo.root) == some repo.root then s
  else
    Dataloader.updateCaches
      { s with repo := some repo, cache := s.cache.clear, updating := false,
               updateDelay := none }
      repo

/-- The four values fetched jointly by the _updateCaches timer callback. -/
structure ReloadData where
  branch : String
  commits : List String
  count : Nat
  logs : List GitLogEntry
deriving DecidableEq, Repr

/-- The fetches issued by the reload callback: current branch (empty when
absent), commits of that branch, count of that branch, and the first full
page of log entries. -/
def GitService.reloadFetch (git : GitService) (repo : GitRepo) : ReloadData :=
  let branch := (git.getCurrentBranch repo).getD ""
  { branch := branch
    commits := git.getCommits repo (some branch)
    count := git.getCommitsCount repo branch none
    logs := git.getLogEntries repo false 0 Cache.logEntriesCount branch none none none none }

/-- Completion of a bulk reload begun for repo: the callback compares the
captured root with the active root after its awaits and discards the fetched
data wholesale on a mismatch; on a match it installs branch, commits, the
branch count and the first-page log entries, and clears the updating flag. -/
def Dataloader.reloadComplete (git : GitService) (s : Dataloader) (repo : GitRepo) :
    Dataloader :=
  let d := git.reloadFetch repo
  if (s.repo.map GitRepo.root) != some repo.root then s
  else
    { s with
      cache := { s.cache with
        branch := d.branch
        commits := d.commits
        counts := s.cache.counts.set (Cache.countKey d.branch "") d.count
        logEntries := s.cache.logEntries.set (Cache.logEntryKey d.branch false none none none) d.logs }
      updating := false }

/-- Completion of a queued cache-warming task: the callback fetches the first
full page for the captured parameters and stores it under the captured key
unconditionally — the source performs no active-repo comparison here. -/
def Dataloader.warmComplete (git : GitService) (s : Dataloader) (t : WarmTask) :
    Dataloader :=
  let cacheEntries := git.getLogEntries t.repo t.express 0 Cache.logEntriesCount
    t.branch t.isStash t.file t.line t.author
  { s with cache := { s.cache with
      logEntries := s.cache.logEntries.set t.key cacheEntries } }

/-- Events of the cooperative execution model: a repository switch, a
filesystem notification (the watcher callbacks invoke _updateCaches), the
debounce timer firing, the completion of an in-flight bulk reload or warming
task, and the two cache-mutating queries. -/
inductive DLEvent where
  | updateRepo (r : GitRepo)
  | notify (r : GitRepo)
  | timerFire
  | reloadDone (r : GitRepo)
  | warmDone (t : WarmTask)
  | queryLog (repo : GitRepo) (express : Bool) (start count : Nat) (branch : String)
      (isStash : Option Bool) (file : Option String) (line : Option Nat)
      (author : Option String)
  | queryCount (repo : GitRepo) (branch : String) (author : Option String)
deriving DecidableEq, Repr

/-- One step of the cooperative model.  Completion events for tasks that are
not outstanding are no-ops; a fired timer moves its captured repo to the
in-flight reload list. -/
def Dataloader.step (git : GitService) (s : Dataloader) : DLEvent → Dataloader
  | .updateRepo r => s.updateRepo r
  | .notify r => s.updateCaches r
  | .timerFire =>
    match s.updateDelay with
    | none => s
    | some r => { s with updateDelay := none, inflight := s.inflight ++ [r] }
  | .reloadDone r =>
    if s.inflight.contains r then
      Dataloader.reloadComplete git { s with inflight := s.inflight.erase r } r
    else s
  | .warmDone t =>
    if s.warming.contains t then
      Dataloader.warmComplete git { s with warming := s.warming.erase t } t
    else s
  | .queryLog repo express start count branch isStash file line author =>
    (Dataloader.getLogEntries git s repo express start count branch isStash file line author).2.1
  | .queryCount repo branch author =>
    (Dataloader.getCommitsCount git s repo branch author).2.1

/-- Run a list of events from a state. -/
def Dataloader.run (git : GitService) (s : Dataloader) (es : List DLEvent) : Dataloader :=
  es.foldl (Dataloader.step git) s

/-- Fallible variant of the git data source: each call either returns a value
or rejects with an error message. -/
structure GitServiceE where
  getLogEntries : GitRepo → Bool → Nat → Nat → String → Option Bool → Option String →
    Option Nat → Option String → Except String (List GitLogEntry)
  getCommitsCount : GitRepo → String → Option String → Except String Nat
  getCurrentBranch : GitRepo → Except String (Option String)
  getCommits : GitRepo → Option String → Except String (List String)

/-- The reload callback against a fallible source.  The source wraps none of
its awaits in a try block: the first rejection aborts the callback before any
state write — so neither the cache nor the updating flag is touched — and
propagates as an unhandled rejection (returned here out of band as the second
component; no query caller ever awaits this callback). -/
def Dataloader.reloadCompleteE (git : GitServiceE) (s : Dataloader) (repo : GitRepo) :
    Dataloader × Option String :=
  match git.getCurrentBranch repo with
  | .error e => (s, some e)
  | .ok b =>
    let branch := b.getD ""
    match git.getCommits repo (some branch), git.getCommitsCount repo branch none,
          git.getLogEntries repo false 0 Cache.logEntriesCount branch none none none none with
    | .ok commits, .ok count, .ok logs =>
      if (s.repo.map GitRepo.root) != some repo.root then (s, none)
      else
        ({ s with
           cache := { s.cache with
             branch := branch
             commits := commits
             counts := s.cache.counts.set (Cache.countKey branch "") count
             logEntries := s.cache.logEntries.set
               (Cache.logEntryKey branch false none none none) logs }
           updating := false }, none)
    | .error e, _, _ => (s, some e)
    | _, .error e, _ => (s, some e)
    | _, _, .error e => (s, some e)

/-- The warming callback against a fallible source: a rejection aborts it
before its single cache write. -/
def Dataloader.warmCompleteE (git : GitServiceE) (s : Dataloader) (t : WarmTask) :
    Dataloader × Option String :=
  match git.getLogEntries t.repo t.express 0 Cache.logEntriesCount
      t.branch t.isStash t.file t.line t.author with
  | .error e => (s, some e)
  | .ok cacheEntries =>
    ({ s with cache := { s.cache with
        logEntries := s.cache.logEntries.set t.key cacheEntries } }, none)

/-- Outcome of a JavaScript call that may throw. -/
inductive JsResult (α : Type) where
  | ok (value : α)
  | thrown
deriving DecidableEq, Repr

/-- Dynamic-call semantics of getLogEntries when its (statically required)
repo argument is absent: the body evaluates repo.root, which throws a
TypeError on undefined before anything else runs. -/
def Dataloader.getLogEntriesJs (git : GitService) (s : Dataloader)
    (repo : Option GitRepo) (express : Bool) (start count : Nat) (branch : String)
    (isStash : Option Bool) (file : Option String) (line : Option Nat)
    (author : Option String) : JsResult (List GitLogEntry × Dataloader × Bool) :=
  match repo with
  | none => .thrown
  | some r =>
    .ok (Dataloader.getLogEntries git s r express start count branch isStash file line author)

/-- Dynamic-call semantics of getCommitsCount with an absent repo argument:
evaluating repo.root throws a TypeError. -/
def Dataloader.getCommitsCountJs (git : GitService) (s : Dataloader)
    (repo : Option GitRepo) (branch : String) (author : Option String) :
    JsResult (Nat × Dataloader × Bool) :=
  match repo with
  | none => .thrown
  | some r => .ok (Dataloader.getCommitsCount git s r branch author)

/-! Concrete fixtures used by counterexamples and witnesses. -/

def repoA : GitRepo := ⟨"/a"⟩

def repoB : GitRepo := ⟨"/b"⟩

/-- A deterministic git source whose answers identify the repo and branch they
were fetched for. -/
def gitFixture : GitService where
  getLogEntries := fun r _ _ _ branch _ _ _ _ => [⟨r.root ++ ":" ++ branch⟩]
  getCommitsCount := fun _ _ _ => 7
  getCurrentBranch := fun _ => some "main"
  getCommits := fun r _ => [r.root ++ ":c0"]

/-- The initial Dataloader state (all fields at their defaults). -/
def dlInit : Dataloader := {}

/-- The warming task queued by a first-page query for branch dev against repo
A: the closure captures repo A, the parameters and the computed key. -/
def warmTaskA : WarmTask :=
  ⟨repoA, false, Cache.logEntryKey "dev" false none none none, "dev", none, none, none, none⟩

/-- Event trace: attach repo A, let its bulk reload complete, run a paginated
query that queues a warming task for A, switch to repo B, let B's bulk reload
complete, and only then let A's stale warming task complete. -/
def traceAB : List DLEvent :=
  [.updateRepo repoA, .timerFire, .reloadDone repoA,
   .queryLog repoA false 0 10 "dev" none none none none,
   .updateRepo repoB, .timerFire, .reloadDone repoB,
   .warmDone warmTaskA]

/-- State whose counts cache holds a commit count of exactly zero for branch
main of the active repo A. -/
def stateZeroCount : Dataloader :=
  { repo := some repoA
    cache := { counts := ⟨100, [(Cache.countKey "main" "", 0)]⟩ } }

/-- A cached first page of exactly logEntriesCount entries. -/
def fullPage : List GitLogEntry := List.replicate Cache.logEntriesCount ⟨"x"⟩

/-- State whose logEntries cache holds the full page for branch main of the
active repo A. -/
def stateFullPage : Dataloader :=
  { repo := some repoA
    cache := { logEntries := ⟨5, [(Cache.logEntryKey "main" false none none none, fullPage)]⟩ } }

/-- A cached first page shorter than the full-page constant. -/
def smallPage : List GitLogEntry := [⟨"s1"⟩, ⟨"s2"⟩, ⟨"s3"⟩]

/-- State whose logEntries cache holds the short page for branch main of the
active repo A. -/
def stateSmallPage : Dataloader :=
  { repo := some repoA
    cache := { logEntries := ⟨5, [(Cache.logEntryKey "main" false none none none, smallPage)]⟩ } }

/-- State with the four-commit history of the neighbour-lookup property,
newest first, for the active repo A. -/
def stateCommits : Dataloader :=
  { repo := some repoA
    cache := { commits := ["c3", "c2", "c1", "c0"] } }

/-- State in which a reload for the active repo A is in flight (updating set,
timer already fired). -/
def stateUpdating : Dataloader :=
  { repo := some repoA
    updating := true
    inflight := [repoA] }

/-- State in which repo B is now active while a reload begun for repo A is
still in flight. -/
def stateSwitched : Dataloader :=
  { repo := some repoB
    updating := true
    inflight := [repoA] }

/-- A fallible git source all of whose calls reject. -/
def gitFailing : GitServiceE :=
  { getLogEntries := fun _ _ _ _ _ _ _ _ _ => .error "boom"
    getCommitsCount := fun _ _ _ => .error "boom"
    getCurrentBranch := fun _ => .error "boom"
    getCommits := fun _ _ => .error "boom" }

/-- Decimal value of a digit character. -/
def digitVal (c : Char) : Nat := c.toNat - '0'.toNat

/-- Value of a decimal digit string, most significant digit first. -/
def decVal (l : List Char) : Nat := l.foldl (fun a c => 10 * a + digitVal c) 0

/-- The validity condition under which the key builders are injective: a
supplied optional string field is nonempty and avoids the separator. -/
def KeyFieldOk (o : Option String) : Prop :=
  ∀ x, o = some x → (',' ∉ x.data ∧ x ≠ "")

/-! Helper lemmas: decimal rendering, key characterization, cache masking. -/

theorem decVal_append_singleton (l : List Char) (c : Char) :
    decVal (l ++ [c]) = 10 * decVal l + digitVal c := by
  simp [decVal, List.foldl_append]

theorem toDigitsCore_eq_append (b : Nat) :
    ∀ (f n : Nat) (acc : List Char),
      Nat.toDigitsCore b f n acc = Nat.toDigitsCore b f n [] ++ acc := by
  intro f
  induction f with
  | zero => intro n acc; simp [Nat.toDigitsCore]
  | succ f ih =>
    intro n acc
    have hunf : ∀ ds : List Char, Nat.toDigitsCore b (f + 1) n ds =
        if n / b = 0 then Nat.digitChar (n % b) :: ds
        else Nat.toDigitsCore b f (n / b) (Nat.digitChar (n % b) :: ds) := by
      intro ds; rfl
    rw [hunf acc, hunf []]
    by_cases h : n / b = 0
    · simp [h]
    · simp only [h, if_false]
      rw [ih (n / b) (Nat.digitChar (n % b) :: acc), ih (n / b) [Nat.digitChar (n % b)]]
      simp

theorem digitVal_digitChar : ∀ m : Fin 10, digitVal (Nat.digitChar m.val) = m.val := by
  decide

theorem decVal_toDigitsCore : ∀ (f n : Nat), n ≤ f →
    decVal (Nat.toDigitsCore 10 (f + 1) n []) = n := by
  intro f
  induction f with
  | zero =>
    intro n hn
    have h0 : n = 0 := Nat.le_zero.mp hn
    subst h0
    decide
  | succ f ih =>
    intro n hn
    have hunf : Nat.toDigitsCore 10 (f + 1 + 1) n [] =
        if n / 10 = 0 then [Nat.digitChar (n % 10)]
        else Nat.toDigitsCore 10 (f + 1) (n / 10) [Nat.digitChar (n % 10)] := rfl
    rw [hunf]
    by_cases h : n / 10 = 0
    · have hlt : n < 10 := by omega
      simp only [h, if_true]
      have hmod : n % 10 = n := Nat.mod_eq_of_lt hlt
      rw [hmod]
      have := digitVal_digitChar ⟨n, hlt⟩
      simp [decVal, this]
    · simp only [h, if_false]
      rw [toDigitsCore_eq_append, decVal_append_singleton]
      have hih : decVal (Nat.toDigitsCore 10 (f + 1) (n / 10) []) = n / 10 := by
        apply ih
        omega
      have hm : n % 10 < 10 := by omega
      have hdig : digitVal (Nat.digitChar (n % 10)) = n % 10 := digitVal_digitChar ⟨n % 10, hm⟩
      rw [hih, hdig]
      omega

theorem decVal_repr (n : Nat) : decVal (Nat.repr n).data = n := by
  have h : (Nat.repr n).data = Nat.toDigitsCore 10 (n + 1) n [] := rfl
  rw [h]
  exact decVal_toDigitsCore n n le_rfl

theorem repr_injective {m n : Nat} (h : Nat.repr m = Nat.repr n) : m = n := by
  have hm := decVal_repr m
  rw [h, decVal_repr] at hm
  omega

theorem digitChar_ne_comma : ∀ m : Fin 10, Nat.digitChar m.val ≠ ',' := by
  decide

theorem comma_not_mem_toDigitsCore :
    ∀ (f n : Nat) (acc : List Char), ',' ∉ acc → ',' ∉ Nat.toDigitsCore 10 f n acc := by
  intro f
  induction f with
  | zero => intro n acc hacc; simpa [Nat.toDigitsCore] using hacc
  | succ f ih =>
    intro n acc hacc
    have hm : n % 10 < 10 := by omega
    have hchar : Nat.digitChar (n % 10) ≠ ',' := digitChar_ne_comma ⟨n % 10, hm⟩
    have hcons : ',' ∉ Nat.digitChar (n % 10) :: acc := by
      intro hmem
      rcases List.mem_cons.mp hmem with h1 | h1
      · exact hchar h1.symm
      · exact hacc h1
    have hunf : Nat.toDigitsCore 10 (f + 1) n acc =
        if n / 10 = 0 then Nat.digitChar (n % 10) :: acc
        else Nat.toDigitsCore 10 f (n / 10) (Nat.digitChar (n % 10) :: acc) := rfl
    rw [hunf]
    by_cases h : n / 10 = 0
    · simpa [h] using hcons
    · simp only [h, if_false]
      exact ih (n / 10) (Nat.digitChar (n % 10) :: acc) hcons

theorem comma_not_mem_repr (n : Nat) : ',' ∉ (Nat.repr n).data := by
  have h : (Nat.repr n).data = Nat.toDigitsCore 10 (n + 1) n [] := rfl
  rw [h]
  exact comma_not_mem_toDigitsCore (n + 1) n [] (by simp)

theorem length_le_toDigitsCore (b : Nat) :
    ∀ (f n : Nat) (acc : List Char), acc.length ≤ (Nat.toDigitsCore b f n acc).length := by
  intro f
  induction f with
  | zero => intro n acc; simp [Nat.toDigitsCore]
  | succ f ih =>
    intro n acc
    have hunf : Nat.toDigitsCore b (f + 1) n acc =
        if n / b = 0 then Nat.digitChar (n % b) :: acc
        else Nat.toDigitsCore b f (n / b) (Nat.digitChar (n % b) :: acc) := rfl
    rw [hunf]
    by_cases h : n / b = 0
    · simp [h]
    · simp only [h, if_false]
      calc acc.length ≤ (Nat.digitChar (n % b) :: acc).length := by simp
        _ ≤ _ := ih (n / b) (Nat.digitChar (n % b) :: acc)

theorem repr_ne_empty (n : Nat) : Nat.repr n ≠ "" := by
  intro h
  have h0 : (Nat.repr n).data = [] := by rw [h]
  have hdata : (Nat.repr n).data = Nat.toDigitsCore 10 (n + 1) n [] := rfl
  have hunf : Nat.toDigitsCore 10 (n + 1) n [] =
      if n / 10 = 0 then [Nat.digitChar (n % 10)]
      else Nat.toDigitsCore 10 n (n / 10) [Nat.digitChar (n % 10)] := rfl
  rw [hdata, hunf] at h0
  by_cases hd : n / 10 = 0
  · simp [hd] at h0
  · simp only [hd, if_false] at h0
    have := length_le_toDigitsCore 10 n (n / 10) [Nat.digitChar (n % 10)]
    rw [h0] at this
    simp at this

theorem commaSplit : ∀ (l1 l2 r1 r2 : List Char), ',' ∉ l1 → ',' ∉ l2 →
    l1 ++ ',' :: r1 = l2 ++ ',' :: r2 → l1 = l2 ∧ r1 = r2 := by
  intro l1
  induction l1 with
  | nil =>
    intro l2 r1 r2 _ h2 heq
    cases l2 with
    | nil => simpa using heq
    | cons d l2 =>
      simp only [List.nil_append, List.cons_append, List.cons.injEq] at heq
      exact absurd (by rw [heq.1]; exact List.mem_cons_self d l2) h2
  | cons c l1 ih =>
    intro l2 r1 r2 h1 h2 heq
    cases l2 with
    | nil =>
      simp only [List.cons_append, List.nil_append, List.cons.injEq] at heq
      exact absurd (by rw [← heq.1]; exact List.mem_cons_self c l1) h1
    | cons d l2 =>
      simp only [List.cons_append, List.cons.injEq] at heq
      obtain ⟨hcd, heq⟩ := heq
      have hrec := ih l2 r1 r2 (fun hm => h1 (List.mem_cons_of_mem c hm))
        (fun hm => h2 (List.mem_cons_of_mem d hm)) heq
      exact ⟨by rw [hcd, hrec.1], hrec.2⟩

theorem countKey_data (b a : String) :
    (Cache.countKey b a).data = b.data ++ ',' :: a.data := by
  simp [Cache.countKey, String.data_append, List.append_assoc]

theorem logEntryKey_data (b : String) (st : Bool) (f : Option String)
    (l : Option Nat) (a : Option String) :
    (Cache.logEntryKey b st f l a).data =
      b.data ++ ',' :: ((if st then "1" else "").data ++ ',' ::
        ((f.getD "").data ++ ',' :: (((l.map Nat.repr).getD "").data ++ ',' ::
          (a.getD "").data))) := by
  simp [Cache.logEntryKey, String.data_append, List.append_assoc]

theorem stash_marker_comma (st : Bool) : ',' ∉ (if st then "1" else "").data := by
  cases st <;> decide

theorem stash_marker_inj {s1 s2 : Bool}
    (h : ((if s1 then "1" else "") : String) = if s2 then "1" else "") : s1 = s2 := by
  cases s1 <;> cases s2 <;> first | rfl | exact absurd h (by decide)

theorem field_comma {f : Option String} (hf : KeyFieldOk f) : ',' ∉ (f.getD "").data := by
  cases f with
  | none => decide
  | some x => exact (hf x rfl).1

theorem field_inj {f1 f2 : Option String} (h1 : KeyFieldOk f1) (h2 : KeyFieldOk f2)
    (h : f1.getD "" = f2.getD "") : f1 = f2 := by
  cases f1 with
  | none =>
    cases f2 with
    | none => rfl
    | some y => exact absurd h.symm (h2 y rfl).2
  | some x =>
    cases f2 with
    | none => exact absurd h (h1 x rfl).2
    | some y => simpa using h

theorem line_comma (l : Option Nat) : ',' ∉ ((l.map Nat.repr).getD "").data := by
  cases l with
  | none => decide
  | some n => exact comma_not_mem_repr n

theorem line_inj {l1 l2 : Option Nat}
    (h : (l1.map Nat.repr).getD "" = (l2.map Nat.repr).getD "") : l1 = l2 := by
  cases l1 with
  | none =>
    cases l2 with
    | none => rfl
    | some n => exact absurd h.symm (repr_ne_empty n)
  | some m =>
    cases l2 with
    | none => exact absurd h (repr_ne_empty m)
    | some n => simpa using repr_injective (by simpa using h)

theorem countKey_inj {b1 a1 b2 a2 : String} (hb1 : ',' ∉ b1.data) (hb2 : ',' ∉ b2.data)
    (h : Cache.countKey b1 a1 = Cache.countKey b2 a2) : b1 = b2 ∧ a1 = a2 := by
  have hd := congrArg String.data h
  rw [countKey_data, countKey_data] at hd
  have hsp := commaSplit b1.data b2.data a1.data a2.data hb1 hb2 hd
  exact ⟨String.ext hsp.1, String.ext hsp.2⟩

theorem logEntryKey_inj {b1 b2 : String} {s1 s2 : Bool} {f1 f2 : Option String}
    {l1 l2 : Option Nat} {a1 a2 : Option String}
    (hb1 : ',' ∉ b1.data) (hb2 : ',' ∉ b2.data)
    (hf1 : KeyFieldOk f1) (hf2 : KeyFieldOk f2)
    (ha1 : KeyFieldOk a1) (ha2 : KeyFieldOk a2)
    (h : Cache.logEntryKey b1 s1 f1 l1 a1 = Cache.logEntryKey b2 s2 f2 l2 a2) :
    b1 = b2 ∧ s1 = s2 ∧ f1 = f2 ∧ l1 = l2 ∧ a1 = a2 := by
  have hd := congrArg String.data h
  rw [logEntryKey_data, logEntryKey_data] at hd
  obtain ⟨hbr, hd⟩ := commaSplit _ _ _ _ hb1 hb2 hd
  obtain ⟨hst, hd⟩ := commaSplit _ _ _ _ (stash_marker_comma s1) (stash_marker_comma s2) hd
  obtain ⟨hfi, hd⟩ := commaSplit _ _ _ _ (field_comma hf1) (field_comma hf2) hd
  obtain ⟨hli, hd⟩ := commaSplit _ _ _ _ (line_comma l1) (line_comma l2) hd
  exact ⟨String.ext hbr, stash_marker_inj (String.ext hst),
    field_inj hf1 hf2 (String.ext hfi), line_inj (String.ext hli),
    field_inj ha1 ha2 (String.ext hd)⟩

theorem useCache_false_of_updating (s : Dataloader) (h : s.updating = true)
    (root : String) : s.useCache root = false := by
  unfold Dataloader.useCache
  cases hr : s.repo with
  | none => rfl
  | some r => simp [h]

/-! Claim theorems. -/

/-- C1, counterexample: the claim that no value fetched for repository A is
ever written into the cache after the active repository switches from A to B
is false.  In the trace below, a cache-warming fetch started for A while A
was active completes after the switch to B and its result — the live answer
for A — is written into the logEntries cache, because the warming callback
performs no active-repository comparison. -/
theorem C1_warming_cross_repo_write :
    (Dataloader.run gitFixture dlInit traceAB).repo = some repoB ∧
    repoB.root ≠ repoA.root ∧
    ((Dataloader.run gitFixture dlInit traceAB).cache.logEntries.get
        (Cache.logEntryKey "dev" false none none none)).1 =
      some (gitFixture.getLogEntries repoA false 0 Cache.logEntriesCount "dev"
        none none none none) ∧
    gitFixture.getLogEntries repoA false 0 Cache.logEntriesCount "dev" none none none none ≠
      gitFixture.getLogEntries repoB false 0 Cache.logEntriesCount "dev" none none none none := by
  exact ⟨by decide, by decide, by decide, by decide⟩

/-- C1, amended: exclusivity does hold for bulk reloads — whenever the
completion of a bulk reload changes the cache at all, the reload's repository
root equals the then-active root, so a reload begun for A writes nothing
after a switch away from A; only the warming path lacks the guard. -/
theorem C1_reload_writes_only_for_active_root (git : GitService) (s : Dataloader)
    (r : GitRepo) (h : (Dataloader.step git s (.reloadDone r)).cache ≠ s.cache) :
    s.repo.map GitRepo.root = some r.root := by
  by_contra hne
  apply h
  simp only [Dataloader.step]
  by_cases hc : s.inflight.contains r
  · simp only [hc, if_true]
    unfold Dataloader.reloadComplete
    have hbne : ((({ s with inflight := s.inflight.erase r } : Dataloader).repo.map
        GitRepo.root) != some r.root) = true := by
      simpa [bne_iff_ne] using hne
    simp [hbne]
  · have hm : ¬ (r ∈ s.inflight) := by simpa using hc
    simp [hm]

/-- C1, witness: a reload completion for the active repo A does change the
cache, and the theorem concludes the matching root. -/
theorem C1_reload_writes_only_for_active_root_witness :
    (Dataloader.step gitFixture stateUpdating (.reloadDone repoA)).cache
      ≠ stateUpdating.cache ∧
    stateUpdating.repo.map GitRepo.root = some repoA.root :=
  ⟨by decide, C1_reload_writes_only_for_active_root gitFixture stateUpdating repoA (by decide)⟩

/-- C2: with a commit count of exactly 0 cached under the queried key, the
truthiness hit-test of getCommitsCount treats the entry as a miss: the live
source is called (flag true) and its answer is returned instead of the cached
zero — the claimed cache-or-fetch behaviour fails for the value 0, the slip
the specification itself flags as a likely source defect. -/
theorem C2_zero_count_is_refetched :
    (stateZeroCount.cache.counts.get (Cache.countKey "main" "")).1 = some 0 ∧
    (Dataloader.getCommitsCount gitFixture stateZeroCount repoA "main" none).2.2 = true ∧
    (Dataloader.getCommitsCount gitFixture stateZeroCount repoA "main" none).1 =
      gitFixture.getCommitsCount repoA "main" none := by
  exact ⟨by decide, by decide, by decide⟩

set_option maxRecDepth 20000 in
/-- C3, counterexample: the boundary window whose end equals the stored
length is not served from the cache.  With a cached entry of exactly the
full-page length and the request for the window from 0 of that very length,
the coverage test start + count < length fails, a live call is made (flag
true) and its result, not the cached slice, is returned. -/
theorem C3_boundary_window_goes_live :
    fullPage.length = Cache.logEntriesCount ∧
    (stateFullPage.cache.logEntries.get
        (Cache.logEntryKey "main" false none none none)).1 = some fullPage ∧
    (Dataloader.getLogEntries gitFixture stateFullPage repoA false 0 Cache.logEntriesCount
        "main" none none none none).2.2 = true ∧
    (Dataloader.getLogEntries gitFixture stateFullPage repoA false 0 Cache.logEntriesCount
        "main" none none none none).1 ≠ jsSlice fullPage 0 (0 + Cache.logEntriesCount) := by
  exact ⟨by decide, rfl, by decide, by decide⟩

/-- C3, amended: with a usable cache, a hit below the full-page constant is
served as the in-range slice with no live call for every window; a hit of at
least the constant is served from the cache exactly when start + count is
strictly below the stored length; otherwise — insufficient coverage or a
miss — the live source is called for the requested window and its result
returned. -/
theorem C3_cache_hit_semantics (git : GitService) (s : Dataloader) (repo : GitRepo)
    (express : Bool) (start count : Nat) (branch : String) (isStash : Option Bool)
    (file : Option String) (line : Option Nat) (author : Option String)
    (hc : s.useCache repo.root = true) :
    (∀ E, (s.cache.logEntries.get
        (Cache.logEntryKey branch (isStash.getD false) file line author)).1 = some E →
      ((E.length < Cache.logEntriesCount →
        (Dataloader.getLogEntries git s repo express start count branch isStash file line
            author).1 = jsSlice E start (start + count) ∧
        (Dataloader.getLogEntries git s repo express start count branch isStash file line
            author).2.2 = false) ∧
       (Cache.logEntriesCount ≤ E.length → start + count < E.length →
        (Dataloader.getLogEntries git s repo express start count branch isStash file line
            author).1 = jsSlice E start (start + count) ∧
        (Dataloader.getLogEntries git s repo express start count branch isStash file line
            author).2.2 = false) ∧
       (Cache.logEntriesCount ≤ E.length → E.length ≤ start + count →
        (Dataloader.getLogEntries git s repo express start count branch isStash file line
            author).1 = git.getLogEntries repo express start count branch isStash file line
            author ∧
        (Dataloader.getLogEntries git s repo express start count branch isStash file line
            author).2.2 = true))) ∧
    ((s.cache.logEntries.get
        (Cache.logEntryKey branch (isStash.getD false) file line author)).1 = none →
      (Dataloader.getLogEntries git s repo express start count branch isStash file line
          author).1 = git.getLogEntries repo express start count branch isStash file line
          author ∧
      (Dataloader.getLogEntries git s repo express start count branch isStash file line
          author).2.2 = true) := by
  constructor
  · intro E hE
    refine ⟨?_, ?_, ?_⟩
    · intro hlt
      simp [Dataloader.getLogEntries, hc, hE, hlt]
    · intro hge hcov
      have hnlt : ¬ E.length < Cache.logEntriesCount := by omega
      simp [Dataloader.getLogEntries, hc, hE, hnlt, hcov]
    · intro hge hncov
      have hnlt : ¬ E.length < Cache.logEntriesCount := by omega
      have hnc : ¬ start + count < E.length := by omega
      simp only [Dataloader.getLogEntries, hc, hE]
      simp only [hnlt, if_false, hnc]
      repeat' split
      all_goals simp
  · intro hE
    simp only [Dataloader.getLogEntries, hc, hE]
    repeat' split
    all_goals simp

/-- C3, witness: a short cached page is served as a slice with no live call. -/
theorem C3_cache_hit_semantics_witness :
    (Dataloader.getLogEntries gitFixture stateSmallPage repoA false 0 5 "main"
        none none none none).1 = jsSlice smallPage 0 (0 + 5) ∧
    (Dataloader.getLogEntries gitFixture stateSmallPage repoA false 0 5 "main"
        none none none none).2.2 = false :=
  ((C3_cache_hit_semantics gitFixture stateSmallPage repoA false 0 5 "main"
      none none none none (by decide)).1 smallPage (by decide)).1 (by decide)

/-- C4, counterexample: the key builders are not injective over the full
distinct-tuple space — the comma separator also occurs in field values, so
the distinct pairs (a-comma-b, c) and (a, b-comma-c) collide under countKey. -/
theorem C4_comma_collision :
    Cache.countKey "a,b" "c" = Cache.countKey "a" "b,c" ∧
    (("a,b", "c") : String × String) ≠ ("a", "b,c") := by
  decide

/-- C4, amended: the key builders are deterministic pure functions and are
injective on the tuples whose branch contains no comma and whose supplied
optional string fields (file, author) contain no comma and are nonempty; on
that domain two distinct tuples never collide, and a supplied line number or
a true stash flag always yields a key distinct from the omitted form. -/
theorem C4_keys_injective_without_separator :
    (∀ b1 a1 b2 a2 : String, ',' ∉ b1.data → ',' ∉ b2.data →
      Cache.countKey b1 a1 = Cache.countKey b2 a2 → b1 = b2 ∧ a1 = a2) ∧
    (∀ (b1 b2 : String) (s1 s2 : Bool) (f1 f2 : Option String) (l1 l2 : Option Nat)
        (a1 a2 : Option String), ',' ∉ b1.data → ',' ∉ b2.data →
      KeyFieldOk f1 → KeyFieldOk f2 → KeyFieldOk a1 → KeyFieldOk a2 →
      Cache.logEntryKey b1 s1 f1 l1 a1 = Cache.logEntryKey b2 s2 f2 l2 a2 →
      b1 = b2 ∧ s1 = s2 ∧ f1 = f2 ∧ l1 = l2 ∧ a1 = a2) :=
  ⟨fun _ _ _ _ hb1 hb2 h => countKey_inj hb1 hb2 h,
   fun _ _ _ _ _ _ _ _ _ _ hb1 hb2 hf1 hf2 ha1 ha2 h =>
     logEntryKey_inj hb1 hb2 hf1 hf2 ha1 ha2 h⟩

/-- C4, witness: the count-key injectivity applied at a concrete comma-free
tuple. -/
theorem C4_keys_injective_without_separator_witness :
    ("m" : String) = "m" ∧ ("x" : String) = "x" :=
  C4_keys_injective_without_separator.1 "m" "x" "m" "x" (by decide) (by decide) rfl

/-- C5, amended: the four operations whose signatures admit an absent
repository — getCurrentBranch, getNextCommit, getPreviousCommit and
hasNeighborCommits — return their empty or false defaults without failing and
without a live call. -/
theorem C5_optional_repo_defaults (git : GitService) (s : Dataloader) (ref : String) :
    Dataloader.getCurrentBranch git s none = ("", false) ∧
    Dataloader.getNextCommit git s none ref = ("", false) ∧
    Dataloader.getPreviousCommit git s none ref = ("", false) ∧
    Dataloader.hasNeighborCommits git s none ref = ((false, false), false) :=
  ⟨rfl, rfl, rfl, rfl⟩

/-- C5, witness: the defaults at a concrete source, state and ref. -/
theorem C5_optional_repo_defaults_witness :
    Dataloader.getCurrentBranch gitFixture dlInit none = ("", false) ∧
    Dataloader.getNextCommit gitFixture dlInit none "x" = ("", false) ∧
    Dataloader.getPreviousCommit gitFixture dlInit none "x" = ("", false) ∧
    Dataloader.hasNeighborCommits gitFixture dlInit none "x" = ((false, false), false) :=
  C5_optional_repo_defaults gitFixture dlInit "x"

/-- C5, counterexample: getLogEntries and getCommitsCount require a present
repository; invoked with an absent one they evaluate the root of undefined
and throw rather than returning the empty default, so the claim fails for
these two of the six operations. -/
theorem C5_required_repo_throws :
    Dataloader.getLogEntriesJs gitFixture dlInit none false 0 10 "main" none none none none
      = .thrown ∧
    Dataloader.getCommitsCountJs gitFixture dlInit none "main" none = .thrown ∧
    (JsResult.thrown : JsResult (Nat × Dataloader × Bool)) ≠ .ok (0, dlInit, false) :=
  ⟨rfl, rfl, by decide⟩

/-- C6: while the refresh flag is raised — it is raised the moment a
notification arrives and stays raised until the reload completes — every read
operation bypasses the cache: getLogEntries, getCommitsCount and
getCurrentBranch return exactly the live answer with the untouched state, and
the three neighbour operations report a live call and produce results
independent of the cache contents. -/
theorem C6_staleness_mask (git : GitService) (s : Dataloader) (repo : GitRepo)
    (express : Bool) (start count : Nat) (branch ref : String) (isStash : Option Bool)
    (file : Option String) (line : Option Nat) (author : Option String)
    (h : s.updating = true) :
    (∀ r, (Dataloader.step git s (.notify r)).updating = true) ∧
    Dataloader.getLogEntries git s repo express start count branch isStash file line author
      = (git.getLogEntries repo express start count branch isStash file line author, s, true) ∧
    Dataloader.getCommitsCount git s repo branch author
      = (git.getCommitsCount repo branch author, s, true) ∧
    Dataloader.getCurrentBranch git s (some repo)
      = ((git.getCurrentBranch repo).getD "", true) ∧
    (Dataloader.getNextCommit git s (some repo) ref).2 = true ∧
    (Dataloader.getPreviousCommit git s (some repo) ref).2 = true ∧
    (Dataloader.hasNeighborCommits git s (some repo) ref).2 = true ∧
    (∀ c : Cache, (Dataloader.getNextCommit git { s with cache := c } (some repo) ref).1
        = (Dataloader.getNextCommit git s (some repo) ref).1) ∧
    (∀ c : Cache, (Dataloader.getPreviousCommit git { s with cache := c } (some repo) ref).1
        = (Dataloader.getPreviousCommit git s (some repo) ref).1) ∧
    (∀ c : Cache, (Dataloader.hasNeighborCommits git { s with cache := c } (some repo) ref).1
        = (Dataloader.hasNeighborCommits git s (some repo) ref).1) := by
  have huse := useCache_false_of_updating s h
  have huse2 : ∀ (c : Cache) (root : String),
      Dataloader.useCache { s with cache := c } root = false := by
    intro c root
    exact useCache_false_of_updating { s with cache := c } h root
  refine ⟨?_, ?_, ?_, ?_, ?_, ?_, ?_, ?_, ?_, ?_⟩
  · intro r
    simp [Dataloader.step, Dataloader.updateCaches]
  · simp [Dataloader.getLogEntries, huse]
  · simp [Dataloader.getCommitsCount, huse]
  · simp [Dataloader.getCurrentBranch, huse]
  · simp only [Dataloader.getNextCommit, huse, Bool.not_false]
    rcases hidx : List.findIdx? (fun x => x == ref) (git.getCommits repo none) with _ | idx <;>
      simp [hidx]
  · simp only [Dataloader.getPreviousCommit, huse, Bool.not_false]
    rcases hidx : List.findIdx? (fun x => x == ref) (git.getCommits repo none) with _ | idx <;>
      simp [hidx]
  · simp only [Dataloader.hasNeighborCommits, huse, Bool.not_false]
    rcases hidx : List.findIdx? (fun x => x == ref) (git.getCommits repo none) with _ | idx <;>
      simp [hidx]
  · intro c
    simp [Dataloader.getNextCommit, huse, huse2]
  · intro c
    simp [Dataloader.getPreviousCommit, huse, huse2]
  · intro c
    simp [Dataloader.hasNeighborCommits, huse, huse2]

/-- C6, witness: a masked commit-count query at a concrete updating state
delegates to the live source. -/
theorem C6_staleness_mask_witness :
    Dataloader.getCommitsCount gitFixture stateUpdating repoA "main" none
      = (7, stateUpdating, true) :=
  (C6_staleness_mask gitFixture stateUpdating repoA false 0 10 "main" "r"
    none none none none rfl).2.2.1

/-- C7: a bulk reload begun for repository r that completes while some other
repository with a different root is active mutates no cache field — the
fetched results are discarded entirely. -/
theorem C7_stale_reload_discarded (git : GitService) (s : Dataloader) (r b : GitRepo)
    (hb : s.repo = some b) (hroot : b.root ≠ r.root) :
    (Dataloader.step git s (.reloadDone r)).cache = s.cache := by
  simp only [Dataloader.step]
  by_cases hc : s.inflight.contains r
  · simp only [hc, if_true]
    unfold Dataloader.reloadComplete
    have hbne : ((({ s with inflight := s.inflight.erase r } : Dataloader).repo.map
        GitRepo.root) != some r.root) = true := by
      simp [hb, bne_iff_ne, hroot]
    simp [hbne]
  · have hm : ¬ (r ∈ s.inflight) := by simpa using hc
    simp [hm]

/-- C7, witness: the reload for A completing after the switch to B leaves the
cache untouched. -/
theorem C7_stale_reload_discarded_witness :
    (Dataloader.step gitFixture stateSwitched (.reloadDone repoA)).cache
      = stateSwitched.cache :=
  C7_stale_reload_discarded gitFixture stateSwitched repoA repoB rfl (by decide)

/-- C8, counterexample: when the data source rejects during a bulk reload for
the unchanged active repository, the scheduler does not transition back to
idle — the updating flag stays raised, because the uncaught rejection aborts
the callback before the line that clears the flag; the claim that it still
returns to idle on completion is false. -/
theorem C8_error_leaves_scheduler_masked :
    (Dataloader.reloadCompleteE gitFailing stateUpdating repoA).2 = some "boom" ∧
    stateUpdating.repo.map GitRepo.root = some repoA.root ∧
    stateUpdating.updating = true ∧
    (Dataloader.reloadCompleteE gitFailing stateUpdating repoA).1.updating = true :=
  ⟨rfl, rfl, rfl, rfl⟩

/-- C8, amended: an error raised during a bulk reload or a warming fetch
reaches no query caller and corrupts nothing — the whole state, cache
included, is left exactly as it was — but the refresh flag is likewise left
as it was, so the scheduler stays masked instead of returning to idle. -/
theorem C8_error_aborts_without_write (git : GitServiceE) (s : Dataloader) (r : GitRepo)
    (t : WarmTask) :
    (∀ e, (Dataloader.reloadCompleteE git s r).2 = some e →
      (Dataloader.reloadCompleteE git s r).1 = s) ∧
    (∀ e, (Dataloader.warmCompleteE git s t).2 = some e →
      (Dataloader.warmCompleteE git s t).1 = s) := by
  constructor
  · intro e he
    unfold Dataloader.reloadCompleteE at he ⊢
    rcases hcb : git.getCurrentBranch r with e1 | b
    · simp [hcb]
    · simp only [hcb] at he ⊢
      rcases hc1 : git.getCommits r (some (b.getD "")) with e2 | commits <;>
        rcases hc2 : git.getCommitsCount r (b.getD "") none with e3 | count <;>
        rcases hc3 : git.getLogEntries r false 0 Cache.logEntriesCount (b.getD "")
          none none none none with e4 | logs <;>
        simp [hc1, hc2, hc3] at he ⊢
      split at he
      · simp at he
      · simp at he
  · intro e he
    unfold Dataloader.warmCompleteE at he ⊢
    rcases hcb : git.getLogEntries t.repo t.express 0 Cache.logEntriesCount
        t.branch t.isStash t.file t.line t.author with e1 | entries
    · simp [hcb]
    · simp [hcb] at he

/-- C8, witness: the failing reload leaves the concrete updating state
unchanged. -/
theorem C8_error_aborts_without_write_witness :
    (Dataloader.reloadCompleteE gitFailing stateUpdating repoA).1 = stateUpdating :=
  (C8_error_aborts_without_write gitFailing stateUpdating repoA warmTaskA).1 "boom" rfl

/-- C9, counterexample: with the commit list c3, c2, c1, c0 newest first, the
newest commit c3 does have a previous (older) neighbour, namely c2, and the
oldest commit c0 does have a next (newer) neighbour, namely c1 — the claim
that previous of the newest and next of the oldest are empty has the two
directions swapped. -/
theorem C9_newest_has_previous :
    (Dataloader.getPreviousCommit gitFixture stateCommits (some repoA) "c3").1 = "c2" ∧
    ("c2" : String) ≠ "" ∧
    (Dataloader.getNextCommit gitFixture stateCommits (some repoA) "c0").1 = "c1" ∧
    ("c1" : String) ≠ "" := by
  decide

/-- C9, amended: with the commit list c3, c2, c1, c0 newest first, next of c2
is c3 and previous of c2 is c1; next of the newest c3 is empty; previous of
the oldest c0 is empty; and for an absent ref both lookups are empty and
hasNeighborCommits reports the pair false, false. -/
theorem C9_neighbor_lookup :
    (Dataloader.getNextCommit gitFixture stateCommits (some repoA) "c2").1 = "c3" ∧
    (Dataloader.getPreviousCommit gitFixture stateCommits (some repoA) "c2").1 = "c1" ∧
    (Dataloader.getNextCommit gitFixture stateCommits (some repoA) "c3").1 = "" ∧
    (Dataloader.getPreviousCommit gitFixture stateCommits (some repoA) "c0").1 = "" ∧
    (Dataloader.getNextCommit gitFixture stateCommits (some repoA) "cX").1 = "" ∧
    (Dataloader.getPreviousCommit gitFixture stateCommits (some repoA) "cX").1 = "" ∧
    (Dataloader.hasNeighborCommits gitFixture stateCommits (some repoA) "cX").1
      = (false, false) := by
  decide

/-- C10: switching to a repository with a new root raises the refresh flag
synchronously and installs the repo, so the cache is immediately unusable for
every root; the flag stays raised across every event other than the
completion of a reload for the active root; and while the flag is raised
every read is delegated to the live source, so the freshly cleared defaults
are never served. -/
theorem C10_switch_masks_until_reload (git : GitService) (s : Dataloader) (r : GitRepo)
    (hnew : s.repo.map GitRepo.root ≠ some r.root) :
    (Dataloader.step git s (.updateRepo r)).updating = true ∧
    (Dataloader.step git s (.updateRepo r)).repo = some r ∧
    (∀ root, (Dataloader.step git s (.updateRepo r)).useCache root = false) ∧
    (∀ (s2 : Dataloader) (e : DLEvent), s2.updating = true →
      (∀ r2, e = .reloadDone r2 → s2.repo.map GitRepo.root ≠ some r2.root) →
      (Dataloader.step git s2 e).updating = true) ∧
    (∀ (s2 : Dataloader) (repo2 : GitRepo), s2.updating = true →
      s2.useCache repo2.root = false ∧
      Dataloader.getCurrentBranch git s2 (some repo2)
        = ((git.getCurrentBranch repo2).getD "", true)) := by
  have hguard : ((s.repo.map GitRepo.root) == some r.root) = false := by
    simpa [beq_iff_eq] using hnew
  have hstep : Dataloader.step git s (.updateRepo r) =
      Dataloader.updateCaches
        { s with repo := some r, cache := s.cache.clear, updating := false,
                 updateDelay := none } r := by
    simp [Dataloader.step, Dataloader.updateRepo, hguard]
  refine ⟨?_, ?_, ?_, ?_, ?_⟩
  · rw [hstep]; rfl
  · rw [hstep]; rfl
  · intro root
    rw [hstep]
    exact useCache_false_of_updating _ rfl root
  · intro s2 e h2 he
    cases e with
    | updateRepo r2 =>
      simp only [Dataloader.step, Dataloader.updateRepo]
      by_cases hg : ((s2.repo.map GitRepo.root) == some r2.root) = true
      · simp [hg, h2]
      · simp only [Bool.not_eq_true] at hg
        simp [hg, Dataloader.updateCaches]
    | notify r2 => simp [Dataloader.step, Dataloader.updateCaches]
    | timerFire =>
      simp only [Dataloader.step]
      rcases hd : s2.updateDelay with _ | r2 <;> simp [hd, h2]
    | reloadDone r2 =>
      have hmm : s2.repo.map GitRepo.root ≠ some r2.root := he r2 rfl
      simp only [Dataloader.step]
      by_cases hc : s2.inflight.contains r2
      · simp only [hc, if_true]
        unfold Dataloader.reloadComplete
        have hbne : ((({ s2 with inflight := s2.inflight.erase r2 } : Dataloader).repo.map
            GitRepo.root) != some r2.root) = true := by
          simpa [bne_iff_ne] using hmm
        simp [hbne, h2]
      · have hm2 : ¬ (r2 ∈ s2.inflight) := by simpa using hc
        simp [hm2, h2]
    | warmDone t =>
      simp only [Dataloader.step]
      by_cases hc : s2.warming.contains t
      · have hm2 : t ∈ s2.warming := by simpa using hc
        simp [hm2, Dataloader.warmComplete, h2]
      · have hm2 : ¬ (t ∈ s2.warming) := by simpa using hc
        simp [hm2, h2]
    | queryLog repo2 express2 start2 count2 branch2 isStash2 file2 line2 author2 =>
      have huse := useCache_false_of_updating s2 h2
      simp [Dataloader.step, Dataloader.getLogEntries, huse, h2]
    | queryCount repo2 branch2 author2 =>
      have huse := useCache_false_of_updating s2 h2
      simp [Dataloader.step, Dataloader.getCommitsCount, huse, h2]
  · intro s2 repo2 h2
    have huse := useCache_false_of_updating s2 h2
    exact ⟨huse repo2.root, by simp [Dataloader.getCurrentBranch, huse]⟩

/-- C10, witness: attaching repo A to the fresh state raises the flag. -/
theorem C10_switch_masks_until_reload_witness :
    (Dataloader.step gitFixture dlInit (.updateRepo repoA)).updating = true :=
  (C10_switch_masks_until_reload gitFixture dlInit repoA (by decide)).1
